import Mathlib

/-!
Shallow embedding of the `win_mem` crate (process lookup, module lookup, and
cross-process memory access) and proofs of its specified properties.

The host operating system services (snapshot enumeration, `OpenProcess`,
`ReadProcessMemory`, `WriteProcessMemory`, `CloseHandle`) are external
collaborators; they are modelled by an explicit `Host` record of response
functions, and the crate's functions are translated as pure functions over
that record.  Machine integers: `DWORD` values are `Nat` reduced modulo
`2 ^ 32` exactly where the Rust code casts or adds; handles are `Nat` with
`0` for the null pointer and `INVALID_HANDLE_VALUE` for the sentinel.
-/

namespace WinMem

/-- Error taxonomy, from `utils.rs` (`WinErrorKind`). -/
inductive WinErrorKind where
  | ReadMemoryError
  | WriteMemoryError
  | FindProcessError
  | FindModuleError
deriving DecidableEq, Repr

/-- Result type `WinResult<T>`, from `utils.rs`. -/
abbrev WinResult (T : Type) := Except WinErrorKind T

/-- The null handle (`ptr::null`). -/
def NULL_HANDLE : Nat := 0

/-- The `INVALID_HANDLE_VALUE` sentinel (`-1` cast to a 64-bit pointer). -/
def INVALID_HANDLE_VALUE : Nat := 18446744073709551615

/-- The modulus `2 ^ 32` of the 32-bit `DWORD` arithmetic used for addresses. -/
def DWORD_MOD : Nat := 4294967296

/-- UTF-16 decoding of a code-unit sequence, modelling `String::from_utf16`:
basic-plane non-surrogate units decode directly, a high surrogate must be
followed by a low surrogate (combined into one supplementary character), and
any unpaired surrogate makes the whole decoding fail. -/
def decodeUtf16 : List Nat → Option (List Char)
  | [] => some []
  | u :: rest =>
    if u < 55296 ∨ (57344 ≤ u ∧ u < 65536) then
      match decodeUtf16 rest with
      | some cs => some (Char.ofNat u :: cs)
      | none => none
    else if 55296 ≤ u ∧ u < 56320 then
      match rest with
      | [] => none
      | v :: rest2 =>
        if 56320 ≤ v ∧ v < 57344 then
          match decodeUtf16 rest2 with
          | some cs => some (Char.ofNat (65536 + (u - 55296) * 1024 + (v - 56320)) :: cs)
          | none => none
        else none
    else none

/-- Index of the first nil (zero) code unit of the buffer, if any; models the
scanning loop of `remove_nil_bytes` in `utils.rs`. -/
def firstNil : List Nat → Option Nat
  | [] => none
  | c :: rest => if c = 0 then some 0 else (firstNil rest).map (fun i => i + 1)

/-- Embeds `remove_nil_bytes` from `utils.rs`: scan for the first nil code unit and
decode only the slice before it; if the whole buffer is non-nil, decode all of
it.  Returns `none` when `String::from_utf16` would return `Err`. -/
def remove_nil_bytes (c_style_str : List Nat) : Option (List Char) :=
  match firstNil c_style_str with
  | some i => decodeUtf16 (c_style_str.take i)
  | none => decodeUtf16 c_style_str

/-- Embeds `Process` from `process.rs`: matched executable name, pid, and the access
handle returned by `OpenProcess`. -/
structure Process where
  name : List Char
  pid : Nat
  handle : Nat
deriving DecidableEq, Repr

/-- Embeds `Module` from `module.rs` / `lib.rs`: decoded module name, base address
(`modBaseAddr` cast to `DWORD`), and image size in bytes (`modBaseSize`). -/
structure Module where
  name : List Char
  address : Nat
  len : Nat
deriving DecidableEq, Repr

/-- Embeds `Module::is_empty` from `lib.rs`: true iff the module size is 0. -/
def Module.is_empty (m : Module) : Bool := m.len == 0

/-- One `PROCESSENTRY32W` record as yielded by the host enumeration. -/
structure ProcEntry where
  szExeFile : List Nat
  th32ProcessID : Nat
deriving DecidableEq, Repr

/-- One `MODULEENTRY32W` record as yielded by the host enumeration. -/
structure ModEntry where
  szModule : List Nat
  modBaseAddr : Nat
  modBaseSize : Nat
deriving DecidableEq, Repr

/-- The host operating system, as seen through the five capabilities the crate
invokes: snapshot creation, entry enumeration (as the list of records the
`First`/`Next` protocol yields in order, empty when `First` fails),
`OpenProcess`, and the two memory-transfer primitives.  `readOk`/`writeOk`
take the access handle, the absolute address and the byte count and tell
whether the host reports a full transfer; `readVal` gives the bytes a
successful read fills the zero-initialised buffer with. -/
structure Host where
  processSnapHandle : Nat
  processes : List ProcEntry
  moduleSnapHandle : Nat → Nat
  modules : Nat → List ModEntry
  openProcess : Nat → Nat
  readOk : Nat → Nat → Nat → Bool
  readVal : Nat → Nat → Nat → List Nat
  writeOk : Nat → Nat → Nat → Bool

/-- Iteration body of `Process::find`: walk the yielded process entries; for
each, decode the fixed-width executable-name field with `remove_nil_bytes`;
on decode success and a prefix match, open an access handle for the pid and
return the `Process` (the `OpenProcess` result is stored without any validity
check); otherwise advance.  Falling off the end is the process-not-found
error. -/
def findLoop (host : Host) (name : List Char) : List ProcEntry → WinResult Process
  | [] => .error .FindProcessError
  | e :: rest =>
    match remove_nil_bytes e.szExeFile with
    | some p_name =>
      if name.isPrefixOf p_name then
        .ok { name := p_name, pid := e.th32ProcessID,
              handle := host.openProcess e.th32ProcessID }
      else findLoop host name rest
    | none => findLoop host name rest

/-- Embeds `Process::find` from `process.rs`: take a process snapshot, check the
snapshot handle for null and the invalid sentinel before iterating, then run
the enumeration loop. -/
def find (host : Host) (name : List Char) : WinResult Process :=
  if host.processSnapHandle = NULL_HANDLE ∨
      host.processSnapHandle = INVALID_HANDLE_VALUE then
    .error .FindProcessError
  else findLoop host name host.processes

/-- Iteration body of `Process::find_module`: walk the yielded module entries,
decode each fixed-width module-name field, and on a prefix match build the
`Module` (base address cast to `DWORD`, i.e. reduced mod `2 ^ 32`).  Falling
off the end is the module-not-found error. -/
def findModuleLoop (name : List Char) : List ModEntry → WinResult Module
  | [] => .error .FindModuleError
  | e :: rest =>
    match remove_nil_bytes e.szModule with
    | some m_name =>
      if name.isPrefixOf m_name then
        .ok { name := m_name, address := e.modBaseAddr % DWORD_MOD,
              len := e.modBaseSize }
      else findModuleLoop name rest
    | none => findModuleLoop name rest

/-- Embeds `Process::find_module` from `process.rs`: take a module snapshot scoped to
this process's pid, check the snapshot handle, then run the enumeration
loop. -/
def find_module (host : Host) (p : Process) (name : List Char) : WinResult Module :=
  if host.moduleSnapHandle p.pid = NULL_HANDLE ∨
      host.moduleSnapHandle p.pid = INVALID_HANDLE_VALUE then
    .error .FindModuleError
  else findModuleLoop name (host.modules p.pid)

/-- Embeds `Process::write_mem` from `process.rs`: one call to `WriteProcessMemory`
with this process's handle, the absolute address and `size_of::<T>()` (the
byte length of the buffer); `Ok(())` exactly when the host reports a full
transfer, otherwise the memory-write error. -/
def write_mem (host : Host) (p : Process) (buffer : List Nat) (address : Nat) :
    WinResult Unit :=
  if host.writeOk p.handle address buffer.length then .ok ()
  else .error .WriteMemoryError

/-- Embeds `Process::read_mem` from `process.rs`: one call to `ReadProcessMemory`
with this process's handle, the absolute address and `size_of::<T>()`; on a
full transfer the filled buffer is returned, otherwise the memory-read
error. -/
def read_mem (host : Host) (p : Process) (size : Nat) (address : Nat) :
    WinResult (List Nat) :=
  if host.readOk p.handle address size then
    .ok (host.readVal p.handle address size)
  else .error .ReadMemoryError

/-- Embeds `Process::write_mem_relative` from `process.rs`: resolve the module
freshly; on success delegate to `write_mem` at `module.address() + address`
(32-bit `DWORD` addition, so reduced mod `2 ^ 32`); on module-lookup failure
return the memory-write error without touching memory. -/
def write_mem_relative (host : Host) (p : Process) (buffer : List Nat)
    (module_name : List Char) (address : Nat) : WinResult Unit :=
  match find_module host p module_name with
  | .ok m => write_mem host p buffer ((m.address + address) % DWORD_MOD)
  | .error _ => .error .WriteMemoryError

/-- Embeds `Process::read_mem_relative` from `process.rs`: resolve the module
freshly; on success delegate to `read_mem` at `module.address() + address`
(32-bit `DWORD` addition); on module-lookup failure return the memory-read
error without touching memory. -/
def read_mem_relative (host : Host) (p : Process) (size : Nat)
    (module_name : List Char) (address : Nat) : WinResult (List Nat) :=
  match find_module host p module_name with
  | .ok m => read_mem host p size ((m.address + address) % DWORD_MOD)
  | .error _ => .error .ReadMemoryError

/-- Embeds `close_h` from `utils.rs`, as the list of handles it passes to the host
`CloseHandle` primitive: the guard skips null and the invalid sentinel, and at
most one close call is issued. -/
def close_h (handle : Nat) : List Nat :=
  if handle ≠ NULL_HANDLE ∧ handle ≠ INVALID_HANDLE_VALUE then [handle] else []

/-- Embeds `close_h` from `lib.rs` (the older revision of the crate), as the list of
handles it passes to `CloseHandle`: the handle is forwarded unconditionally,
with no guard. -/
def lib_close_h (handle : Nat) : List Nat := [handle]

/-- Decidable form of the enumeration loops' match condition: the fixed-width
name buffer decodes successfully and the decoded name starts with `name`. -/
def matches_entry (name : List Char) (buf : List Nat) : Bool :=
  match remove_nil_bytes buf with
  | some s => name.isPrefixOf s
  | none => false

/-- Whether a `WinResult` is the success variant. -/
def resultIsOk {T : Type} : WinResult T → Bool
  | .ok _ => true
  | .error _ => false

/-- Host with valid snapshot handles, no module entries, and transfer
primitives that always report success; used to exercise the relative
read/write paths when module lookup fails. -/
def hostC1 : Host where
  processSnapHandle := 1
  processes := []
  moduleSnapHandle := fun _ => 1
  modules := fun _ => []
  openProcess := fun _ => 2
  readOk := fun _ _ _ => true
  readVal := fun _ _ _ => [0, 0, 0, 0]
  writeOk := fun _ _ _ => true

/-- A concrete process value for `hostC1`. -/
def procC1 : Process := ⟨['a'], 5, 7⟩

/-- Host whose transfer primitives succeed exactly at address 16. -/
def hostC2 : Host where
  processSnapHandle := 1
  processes := []
  moduleSnapHandle := fun _ => 1
  modules := fun _ => []
  openProcess := fun _ => 2
  readOk := fun _ a _ => a == 16
  readVal := fun _ _ _ => [1, 2, 3, 4]
  writeOk := fun _ a _ => a == 16

/-- A concrete process value for `hostC2`. -/
def procC2 : Process := ⟨['a'], 1, 3⟩

/-- Host enumerating a single process named "g" (code 103). -/
def hostC4 : Host where
  processSnapHandle := 1
  processes := [⟨[103, 0], 9⟩]
  moduleSnapHandle := fun _ => 1
  modules := fun _ => []
  openProcess := fun _ => 2
  readOk := fun _ _ _ => false
  readVal := fun _ _ _ => []
  writeOk := fun _ _ _ => false

/-- Host enumerating a single module named "d" (code 100) at base 4096. -/
def hostC5 : Host where
  processSnapHandle := 1
  processes := []
  moduleSnapHandle := fun _ => 1
  modules := fun _ => [⟨[100, 0], 4096, 100⟩]
  openProcess := fun _ => 2
  readOk := fun _ _ _ => true
  readVal := fun _ _ _ => [8, 8, 8, 8]
  writeOk := fun _ _ _ => true

/-- A concrete process value for `hostC5`. -/
def procC5 : Process := ⟨['a'], 2, 3⟩

/-- Host enumerating a single module named "z" (code 122) whose reported image
size is 0. -/
def hostC7 : Host where
  processSnapHandle := 1
  processes := []
  moduleSnapHandle := fun _ => 1
  modules := fun _ => [⟨[122, 0], 8192, 0⟩]
  openProcess := fun _ => 2
  readOk := fun _ _ _ => false
  readVal := fun _ _ _ => []
  writeOk := fun _ _ _ => false

/-- A concrete process value for `hostC7`. -/
def procC7 : Process := ⟨['a'], 2, 3⟩

/-- Host enumerating a single process named "q" (code 113) whose
`OpenProcess` call yields the null handle, and whose transfer primitives
always report failure. -/
def hostC8 : Host where
  processSnapHandle := 1
  processes := [⟨[113, 0], 4⟩]
  moduleSnapHandle := fun _ => 1
  modules := fun _ => []
  openProcess := fun _ => NULL_HANDLE
  readOk := fun _ _ _ => false
  readVal := fun _ _ _ => []
  writeOk := fun _ _ _ => false

/-- Host enumerating a single module named "w" (code 119) whose base address
is `2 ^ 32 - 4`, with a read primitive succeeding exactly at address 4 (the
wrapped sum of the base and offset 8). -/
def hostC9 : Host where
  processSnapHandle := 1
  processes := []
  moduleSnapHandle := fun _ => 1
  modules := fun _ => [⟨[119, 0], 4294967292, 64⟩]
  openProcess := fun _ => 2
  readOk := fun _ a _ => a == 4
  readVal := fun _ _ _ => [9, 9, 9, 9]
  writeOk := fun _ a _ => a == 4

/-- A concrete process value for `hostC9`. -/
def procC9 : Process := ⟨['a'], 2, 3⟩

/-- Host with no entries at all, used only to instantiate the enumeration
loops on explicit entry lists. -/
def hostC10 : Host where
  processSnapHandle := 1
  processes := []
  moduleSnapHandle := fun _ => 1
  modules := fun _ => []
  openProcess := fun _ => 2
  readOk := fun _ _ _ => false
  readVal := fun _ _ _ => []
  writeOk := fun _ _ _ => false

/-- A process entry whose name buffer is an unpaired high surrogate followed
by a non-surrogate: text decoding of it fails. -/
def badEntryP : ProcEntry := ⟨[55296, 65], 3⟩

/-- A module entry with the same undecodable name buffer. -/
def badEntryM : ModEntry := ⟨[55296, 65], 4096, 10⟩

/-- If position `k` holds the first zero of the buffer, the scanning loop
finds exactly `k`. -/
theorem firstNil_eq_some_of (buf : List Nat) (k : Nat) (hk : k < buf.length)
    (h0 : buf.getD k 0 = 0) (hpre : ∀ j, j < k → buf.getD j 0 ≠ 0) :
    firstNil buf = some k := by
  induction buf generalizing k with
  | nil => simp at hk
  | cons c rest ih =>
    by_cases hc : c = 0
    · have hk0 : k = 0 := by
        by_contra hne
        exact hpre 0 (Nat.pos_of_ne_zero hne) (by simpa using hc)
      subst hk0
      simp [firstNil, hc]
    · have hk0 : k ≠ 0 := by
        intro h
        subst h
        exact hc (by simpa using h0)
      obtain ⟨k', rfl⟩ := Nat.exists_eq_succ_of_ne_zero hk0
      have hrest : firstNil rest = some k' :=
        ih k' (by simpa using hk) (by simpa using h0)
          (fun j hj => by simpa using hpre (j + 1) (Nat.succ_lt_succ hj))
      simp [firstNil, hc, hrest]

/-- A buffer with no zero code unit makes the scanning loop fall through. -/
theorem firstNil_eq_none_of (buf : List Nat) (h : ∀ u ∈ buf, u ≠ 0) :
    firstNil buf = none := by
  induction buf with
  | nil => rfl
  | cons c rest ih =>
    have hc : c ≠ 0 := h c (List.mem_cons_self c rest)
    have hrest := ih (fun u hu => h u (List.mem_cons_of_mem c hu))
    simp [firstNil, hc, hrest]

/-- A successful `findLoop` result's name extends the searched name. -/
theorem findLoop_ok_name (host : Host) (name : List Char) (l : List ProcEntry)
    (p : Process) (h : findLoop host name l = .ok p) :
    name.isPrefixOf p.name = true := by
  induction l with
  | nil => exact absurd h (by simp [findLoop])
  | cons e rest ih =>
    rw [findLoop] at h
    cases hr : remove_nil_bytes e.szExeFile with
    | none =>
      rw [hr] at h
      exact ih h
    | some s =>
      rw [hr] at h
      by_cases hp : name.isPrefixOf s = true
      · simp only [hp, if_true] at h
        cases h
        exact hp
      · simp only [Bool.not_eq_true] at hp
        simp only [hp, Bool.false_eq_true, if_false] at h
        exact ih h

/-- A successful `findLoop` result stores the `OpenProcess` result for its own
pid as its handle, unchecked. -/
theorem findLoop_ok_handle (host : Host) (name : List Char) (l : List ProcEntry)
    (p : Process) (h : findLoop host name l = .ok p) :
    p.handle = host.openProcess p.pid := by
  induction l with
  | nil => exact absurd h (by simp [findLoop])
  | cons e rest ih =>
    rw [findLoop] at h
    cases hr : remove_nil_bytes e.szExeFile with
    | none =>
      rw [hr] at h
      exact ih h
    | some s =>
      rw [hr] at h
      by_cases hp : name.isPrefixOf s = true
      · simp only [hp, if_true] at h
        cases h
        rfl
      · simp only [Bool.not_eq_true] at hp
        simp only [hp, Bool.false_eq_true, if_false] at h
        exact ih h

/-- When no enumerated entry matches, `findLoop` falls off the end with the
process-not-found error. -/
theorem findLoop_err_of_no_match (host : Host) (name : List Char)
    (l : List ProcEntry) (h : ∀ e ∈ l, matches_entry name e.szExeFile = false) :
    findLoop host name l = .error .FindProcessError := by
  induction l with
  | nil => rfl
  | cons e rest ih =>
    have he := h e (List.mem_cons_self e rest)
    have hrest := ih (fun e' he' => h e' (List.mem_cons_of_mem e he'))
    rw [findLoop]
    cases hr : remove_nil_bytes e.szExeFile with
    | none => exact hrest
    | some s =>
      unfold matches_entry at he
      rw [hr] at he
      simp only [] at he
      simp [he, hrest]

/-- When some enumerated entry matches, `findLoop` returns a success. -/
theorem findLoop_isOk_of_match (host : Host) (name : List Char)
    (l : List ProcEntry) (e : ProcEntry) (hmem : e ∈ l)
    (hm : matches_entry name e.szExeFile = true) :
    resultIsOk (findLoop host name l) = true := by
  induction l with
  | nil => cases hmem
  | cons e' rest ih =>
    rw [findLoop]
    rcases List.mem_cons.mp hmem with rfl | hmem'
    · unfold matches_entry at hm
      cases hr : remove_nil_bytes e.szExeFile with
      | none =>
        rw [hr] at hm
        cases hm
      | some s =>
        rw [hr] at hm
        simp only [] at hm
        simp [hm, resultIsOk]
    · cases hr : remove_nil_bytes e'.szExeFile with
      | none => exact ih hmem'
      | some s =>
        by_cases hp : name.isPrefixOf s = true
        · simp only [hp, if_true]
          rfl
        · simp only [Bool.not_eq_true] at hp
          simp only [hp, Bool.false_eq_true, if_false]
          exact ih hmem'

/-- When no enumerated module entry matches, `findModuleLoop` falls off the
end with the module-not-found error. -/
theorem findModuleLoop_err_of_no_match (name : List Char) (l : List ModEntry)
    (h : ∀ e ∈ l, matches_entry name e.szModule = false) :
    findModuleLoop name l = .error .FindModuleError := by
  induction l with
  | nil => rfl
  | cons e rest ih =>
    have he := h e (List.mem_cons_self e rest)
    have hrest := ih (fun e' he' => h e' (List.mem_cons_of_mem e he'))
    rw [findModuleLoop]
    cases hr : remove_nil_bytes e.szModule with
    | none => exact hrest
    | some s =>
      unfold matches_entry at he
      rw [hr] at he
      simp only [] at he
      simp [he, hrest]

/-- C1 (counterexample): on a host where module lookup fails (no module
entries), `read_mem_relative` returns the memory-read error and
`write_mem_relative` the memory-write error — not the module-not-found error
the claim asserts they propagate unchanged — even though `find_module` itself
returned `FindModuleError`. -/
theorem claim1_counterexample :
    find_module hostC1 procC1 ['d'] = .error .FindModuleError ∧
    read_mem_relative hostC1 procC1 4 ['d'] 0 = .error .ReadMemoryError ∧
    write_mem_relative hostC1 procC1 [0] ['d'] 0 = .error .WriteMemoryError ∧
    read_mem_relative hostC1 procC1 4 ['d'] 0 ≠ .error .FindModuleError ∧
    write_mem_relative hostC1 procC1 [0] ['d'] 0 ≠ .error .FindModuleError := by
  refine ⟨rfl, rfl, rfl, ?_, ?_⟩ <;> intro h <;> simp [read_mem_relative,
    write_mem_relative, find_module, findModuleLoop, hostC1, procC1] at h

/-- C1 (amended): when `find_module` fails, `read_mem_relative` returns the
memory-read-failed error and `write_mem_relative` the memory-write-failed
error (masking the module-not-found error), and no memory transfer is
attempted — the result is this error for every behavior of the host transfer
primitives. -/
theorem claim1_amended (host : Host) (p : Process) (size : Nat)
    (buffer : List Nat) (module_name : List Char) (address : Nat)
    (h : find_module host p module_name = .error .FindModuleError) :
    read_mem_relative host p size module_name address = .error .ReadMemoryError ∧
    write_mem_relative host p buffer module_name address = .error .WriteMemoryError := by
  constructor
  · unfold read_mem_relative
    rw [h]
  · unfold write_mem_relative
    rw [h]

/-- C1 (witness): the amended claim instantiated on `hostC1`, whose transfer
primitives always report success, at offset 7. -/
theorem claim1_witness :
    read_mem_relative hostC1 procC1 4 ['d'] 7 = .error .ReadMemoryError ∧
    write_mem_relative hostC1 procC1 [0] ['d'] 7 = .error .WriteMemoryError :=
  claim1_amended hostC1 procC1 4 [0] ['d'] 7 rfl

/-- C2: `read_mem` succeeds exactly when the host read primitive reports a
full transfer of `size` bytes (returning precisely the transferred bytes) and
otherwise returns the memory-read-failed error; `write_mem` succeeds exactly
when the host write primitive reports a full transfer of the buffer's byte
length and otherwise returns the memory-write-failed error; no partial value
is ever returned. -/
theorem claim2 (host : Host) (p : Process) (size address : Nat)
    (buffer : List Nat) :
    (resultIsOk (read_mem host p size address) = true ↔
      host.readOk p.handle address size = true) ∧
    (host.readOk p.handle address size = true →
      read_mem host p size address = .ok (host.readVal p.handle address size)) ∧
    (host.readOk p.handle address size = false →
      read_mem host p size address = .error .ReadMemoryError) ∧
    (resultIsOk (write_mem host p buffer address) = true ↔
      host.writeOk p.handle address buffer.length = true) ∧
    (host.writeOk p.handle address buffer.length = true →
      write_mem host p buffer address = .ok ()) ∧
    (host.writeOk p.handle address buffer.length = false →
      write_mem host p buffer address = .error .WriteMemoryError) := by
  unfold read_mem write_mem
  cases h1 : host.readOk p.handle address size <;>
    cases h2 : host.writeOk p.handle address buffer.length <;>
      simp [resultIsOk]

/-- C2 (witness): on `hostC2` (transfers succeed exactly at address 16), a
read at 16 returns the transferred bytes, while a read and a write at 0
return the respective errors. -/
theorem claim2_witness :
    read_mem hostC2 procC2 4 16 = .ok [1, 2, 3, 4] ∧
    read_mem hostC2 procC2 4 0 = .error .ReadMemoryError ∧
    write_mem hostC2 procC2 [5, 5] 0 = .error .WriteMemoryError :=
  ⟨(claim2 hostC2 procC2 4 16 []).2.1 rfl,
   (claim2 hostC2 procC2 4 0 []).2.2.1 rfl,
   (claim2 hostC2 procC2 0 0 [5, 5]).2.2.2.2.2 rfl⟩

/-- C3: if the first zero code unit of a fixed-width buffer is at position
`k`, `remove_nil_bytes` decodes exactly the length-`k` prefix; a buffer with
no zero decodes whole; and the concrete buffer
`[102, 105, 114, 101, 102, 111, 120, 0]` decodes to the 7-character string
"firefox". -/
theorem claim3 :
    (∀ (buf : List Nat) (k : Nat), k < buf.length → buf.getD k 0 = 0 →
      (∀ j, j < k → buf.getD j 0 ≠ 0) →
      remove_nil_bytes buf = decodeUtf16 (buf.take k)) ∧
    (∀ buf : List Nat, (∀ u ∈ buf, u ≠ 0) →
      remove_nil_bytes buf = decodeUtf16 buf) ∧
    remove_nil_bytes [102, 105, 114, 101, 102, 111, 120, 0] =
      some ['f', 'i', 'r', 'e', 'f', 'o', 'x'] ∧
    (['f', 'i', 'r', 'e', 'f', 'o', 'x'] : List Char).length = 7 := by
  refine ⟨fun buf k hk h0 hpre => ?_, fun buf h => ?_, by decide, rfl⟩
  · unfold remove_nil_bytes
    rw [firstNil_eq_some_of buf k hk h0 hpre]
  · unfold remove_nil_bytes
    rw [firstNil_eq_none_of buf h]

/-- C3 (witness): the prefix part instantiated at buffer `[65, 0, 66]` with
first zero at position 1, and the no-terminator part at `[72, 105]`. -/
theorem claim3_witness :
    remove_nil_bytes [65, 0, 66] = decodeUtf16 [65] ∧
    remove_nil_bytes [72, 105] = decodeUtf16 [72, 105] :=
  ⟨claim3.1 [65, 0, 66] 1 (by decide) (by decide) (by decide),
   claim3.2.1 [72, 105] (by decide)⟩

/-- C4: a process returned by `find` has a decoded executable name of which
the searched name is a (case-sensitive) prefix, and when no enumerated entry
decodes to a name with that prefix, `find` returns the process-not-found
error. -/
theorem claim4 :
    (∀ (host : Host) (name : List Char) (p : Process),
      find host name = .ok p → name.isPrefixOf p.name = true) ∧
    (∀ (host : Host) (name : List Char),
      (∀ e ∈ host.processes, matches_entry name e.szExeFile = false) →
      find host name = .error .FindProcessError) := by
  constructor
  · intro host name p h
    unfold find at h
    by_cases hs : host.processSnapHandle = NULL_HANDLE ∨
        host.processSnapHandle = INVALID_HANDLE_VALUE
    · rw [if_pos hs] at h
      cases h
    · rw [if_neg hs] at h
      exact findLoop_ok_name host name host.processes p h
  · intro host name h
    unfold find
    by_cases hs : host.processSnapHandle = NULL_HANDLE ∨
        host.processSnapHandle = INVALID_HANDLE_VALUE
    · rw [if_pos hs]
    · rw [if_neg hs]
      exact findLoop_err_of_no_match host name host.processes h

/-- C4 (witness): on `hostC4` (one process named "g"), a search for "f" fails
with process-not-found, and the process returned by a search for "g" has "g"
as a prefix of its name. -/
theorem claim4_witness :
    find hostC4 ['f'] = .error .FindProcessError ∧
    List.isPrefixOf ['g'] (Process.mk ['g'] 9 2).name = true :=
  ⟨claim4.2 hostC4 ['f'] (by decide),
   claim4.1 hostC4 ['g'] ⟨['g'], 9, 2⟩ rfl⟩

/-- C5: when `find_module` resolves the module (the module being unchanged
between the two lookups of a fixed host), `read_mem_relative` returns exactly
what `read_mem` returns at the module base address plus the offset (the same
32-bit sum the Rust expression computes). -/
theorem claim5 (host : Host) (p : Process) (size : Nat)
    (module_name : List Char) (address : Nat) (m : Module)
    (h : find_module host p module_name = .ok m) :
    read_mem_relative host p size module_name address =
      read_mem host p size ((m.address + address) % DWORD_MOD) := by
  unfold read_mem_relative
  rw [h]

/-- C5 (witness): on `hostC5` (module "d" at base 4096), a relative read at
offset 16 equals the absolute read at 4096 + 16. -/
theorem claim5_witness :
    read_mem_relative hostC5 procC5 4 ['d'] 16 =
      read_mem hostC5 procC5 4 ((4096 + 16) % DWORD_MOD) :=
  claim5 hostC5 procC5 4 ['d'] 16 ⟨['d'], 4096, 100⟩ rfl

/-- C6 (counterexample): the `close_h` of `lib.rs` passes the null handle and
the invalid-handle sentinel straight to the host close primitive, so the
release path of that revision's `Process` and `Snapshot` values violates the
claimed guard. -/
theorem claim6_counterexample :
    lib_close_h NULL_HANDLE = [NULL_HANDLE] ∧
    NULL_HANDLE ∈ lib_close_h NULL_HANDLE ∧
    INVALID_HANDLE_VALUE ∈ lib_close_h INVALID_HANDLE_VALUE := by
  refine ⟨rfl, ?_, ?_⟩ <;> simp [lib_close_h]

/-- C6 (amended): the `close_h` of `utils.rs` (the release path of the
modular `Process` and `Snapshot`) never passes the null handle or the
invalid-handle sentinel to the host close primitive and issues at most one
close call per release; the `close_h` of `lib.rs` instead forwards every
handle unconditionally, null and sentinel included. -/
theorem claim6_amended :
    (∀ h : Nat, (close_h h).contains NULL_HANDLE = false ∧
      (close_h h).contains INVALID_HANDLE_VALUE = false ∧
      (close_h h).length ≤ 1) ∧
    (∀ h : Nat, lib_close_h h = [h]) := by
  refine ⟨fun h => ?_, fun h => rfl⟩
  unfold close_h
  by_cases h1 : h ≠ NULL_HANDLE ∧ h ≠ INVALID_HANDLE_VALUE
  · rw [if_pos h1]
    refine ⟨?_, ?_, by simp⟩ <;> simp [List.contains] <;> omega
  · rw [if_neg h1]
    exact ⟨rfl, rfl, by simp⟩

/-- C7: `find_module` on a process with zero matching modules returns the
module-not-found error; a matching module is returned successfully whatever
its reported image size (zero included), carrying that size; and `is_empty`
holds exactly when `len` is 0. -/
theorem claim7 :
    (∀ (host : Host) (p : Process) (name : List Char),
      (∀ e ∈ host.modules p.pid, matches_entry name e.szModule = false) →
      find_module host p name = .error .FindModuleError) ∧
    (∀ (host : Host) (p : Process) (name : List Char) (e : ModEntry)
        (rest : List ModEntry) (s : List Char),
      host.modules p.pid = e :: rest →
      host.moduleSnapHandle p.pid ≠ NULL_HANDLE →
      host.moduleSnapHandle p.pid ≠ INVALID_HANDLE_VALUE →
      remove_nil_bytes e.szModule = some s →
      List.isPrefixOf name s = true →
      find_module host p name =
        .ok ⟨s, e.modBaseAddr % DWORD_MOD, e.modBaseSize⟩) ∧
    (∀ m : Module, m.is_empty = true ↔ m.len = 0) := by
  refine ⟨fun host p name h => ?_, fun host p name e rest s hl h1 h2 hr hp => ?_,
    fun m => ?_⟩
  · unfold find_module
    by_cases hs : host.moduleSnapHandle p.pid = NULL_HANDLE ∨
        host.moduleSnapHandle p.pid = INVALID_HANDLE_VALUE
    · rw [if_pos hs]
    · rw [if_neg hs]
      exact findModuleLoop_err_of_no_match name (host.modules p.pid) h
  · unfold find_module
    rw [if_neg (by simp [h1, h2]), hl, findModuleLoop, hr]
    simp [hp]
  · simp [Module.is_empty]

/-- C7 (witness): on `hostC7` (one module named "z" with image size 0), a
lookup of "z" succeeds with a module whose `is_empty` is true, and a lookup
of "q" returns module-not-found. -/
theorem claim7_witness :
    find_module hostC7 procC7 ['z'] = .ok ⟨['z'], 8192 % DWORD_MOD, 0⟩ ∧
    (Module.mk ['z'] (8192 % DWORD_MOD) 0).is_empty = true ∧
    find_module hostC7 procC7 ['q'] = .error .FindModuleError :=
  ⟨claim7.2.1 hostC7 procC7 ['z'] ⟨[122, 0], 8192, 0⟩ [] ['z'] rfl
      (by decide) (by decide) (by decide) (by decide),
   (claim7.2.2 _).mpr rfl,
   claim7.1 hostC7 procC7 ['q'] (by decide)⟩

/-- C8: whenever some enumerated process entry matches the searched name (and
the snapshot handle is usable), `find` succeeds no matter what handle the
open-process call produced; the returned process stores the open-process
result unchecked as its handle, and any later read or write on it for which
the host transfer primitive reports failure surfaces as a memory error at
that point, not at `find`. -/
theorem claim8 (host : Host) (name : List Char)
    (h1 : host.processSnapHandle ≠ NULL_HANDLE)
    (h2 : host.processSnapHandle ≠ INVALID_HANDLE_VALUE)
    (h3 : ∃ e ∈ host.processes, matches_entry name e.szExeFile = true) :
    resultIsOk (find host name) = true ∧
    ∀ p : Process, find host name = .ok p →
      p.handle = host.openProcess p.pid ∧
      (∀ size address : Nat, host.readOk p.handle address size = false →
        read_mem host p size address = .error .ReadMemoryError) ∧
      (∀ (buffer : List Nat) (address : Nat),
        host.writeOk p.handle address buffer.length = false →
        write_mem host p buffer address = .error .WriteMemoryError) := by
  obtain ⟨e, hmem, hm⟩ := h3
  constructor
  · unfold find
    rw [if_neg (by simp [h1, h2])]
    exact findLoop_isOk_of_match host name host.processes e hmem hm
  · intro p hp
    unfold find at hp
    rw [if_neg (by simp [h1, h2])] at hp
    refine ⟨findLoop_ok_handle host name host.processes p hp, ?_, ?_⟩
    · intro size address hfail
      unfold read_mem
      rw [hfail]
      simp
    · intro buffer address hfail
      unfold write_mem
      rw [hfail]
      simp

/-- C8 (witness): on `hostC8`, where `OpenProcess` yields the null handle and
the transfer primitives always fail, `find` still succeeds and a subsequent
read fails with the memory-read error. -/
theorem claim8_witness :
    resultIsOk (find hostC8 ['q']) = true ∧
    read_mem hostC8 ⟨['q'], 4, NULL_HANDLE⟩ 4 100 = .error .ReadMemoryError := by
  have h := claim8 hostC8 ['q'] (by decide) (by decide)
    ⟨⟨[113, 0], 4⟩, by decide, by decide⟩
  exact ⟨h.1, ((h.2 ⟨['q'], 4, NULL_HANDLE⟩ rfl).2.1 4 100 rfl)⟩

/-- C9: the relative-address computation of both relative accessors is the
32-bit addition of the module base and the offset: when the module resolves,
the relative read and write equal the absolute ones at
`(module.address + offset) mod 2 ^ 32`, an address that always stays below
`2 ^ 32` — overflowing offsets wrap around instead of being rejected. -/
theorem claim9 (host : Host) (p : Process) (size : Nat) (buffer : List Nat)
    (module_name : List Char) (address : Nat) (m : Module)
    (h : find_module host p module_name = .ok m) :
    read_mem_relative host p size module_name address =
      read_mem host p size ((m.address + address) % DWORD_MOD) ∧
    write_mem_relative host p buffer module_name address =
      write_mem host p buffer ((m.address + address) % DWORD_MOD) ∧
    (m.address + address) % DWORD_MOD < DWORD_MOD := by
  refine ⟨?_, ?_, Nat.mod_lt _ (by decide)⟩
  · unfold read_mem_relative
    rw [h]
  · unfold write_mem_relative
    rw [h]

/-- C9 (witness): on `hostC9` (module "w" at base `2 ^ 32 - 4`), a relative
read at offset 8 wraps to absolute address 4 and succeeds there. -/
theorem claim9_witness :
    read_mem_relative hostC9 procC9 4 ['w'] 8 = read_mem hostC9 procC9 4 4 ∧
    read_mem_relative hostC9 procC9 4 ['w'] 8 = .ok [9, 9, 9, 9] := by
  have h := claim9 hostC9 procC9 4 [] ['w'] 8 ⟨['w'], 4294967292, 64⟩ rfl
  exact ⟨h.1, h.1.trans rfl⟩

/-- C10: an enumeration entry whose fixed-width name field fails text
decoding is silently skipped — the process loop and the module loop on a list
headed by such an entry equal the loops on the tail, so one bad entry neither
errors the whole operation nor ends the enumeration early. -/
theorem claim10 (host : Host) (name : List Char) (e : ProcEntry)
    (rest : List ProcEntry) (eM : ModEntry) (restM : List ModEntry)
    (h1 : remove_nil_bytes e.szExeFile = none)
    (h2 : remove_nil_bytes eM.szModule = none) :
    findLoop host name (e :: rest) = findLoop host name rest ∧
    findModuleLoop name (eM :: restM) = findModuleLoop name restM := by
  constructor
  · rw [findLoop, h1]
  · rw [findModuleLoop, h2]

/-- C10 (witness): with a concrete undecodable entry (an unpaired surrogate)
in front, both loops step past it: the process loop still finds the "f"
process behind it, and the module loop reaches the end of the list. -/
theorem claim10_witness :
    findLoop hostC10 ['f'] [badEntryP, ⟨[102, 0], 2⟩] =
      findLoop hostC10 ['f'] [⟨[102, 0], 2⟩] ∧
    findModuleLoop ['f'] [badEntryM] = findModuleLoop ['f'] [] :=
  claim10 hostC10 ['f'] badEntryP [⟨[102, 0], 2⟩] badEntryM []
    (by decide) (by decide)

end WinMem
